import Mathlib

/-!
Shallow embedding of `vsrepo.py`, a VapourSynth package manager, together
with proofs about its package state reconciliation engine: installed-state
detection, install/upgrade/uninstall, and hash verification.

External collaborators (hash algorithms, the network fetcher, the archive
extractor, the two install directories) are modelled as components of an
abstract environment `Env`; the catalog and the mutable program state
(installed-package table, filesystem, and a ghost log of materializations)
are explicit values threaded through the functions.  Python exceptions are
modelled with `Except Err`; a raised exception carries the state at the
moment of the raise (global mutations before the raise persist).
-/

set_option autoImplicit false

namespace VSRepo

/-- File contents are modelled as opaque strings of bytes. -/
abbrev Data := String

/-! ### Insertion-ordered association lists, modelling Python `dict` -/

/-- First-match lookup in an association list (Python `d[k]` / `k in d`). -/
def lookupA {κ α : Type} [DecidableEq κ] : List (κ × α) → κ → Option α
  | [], _ => none
  | e :: rest, k => if e.1 = k then some e.2 else lookupA rest k

/-- Python `d[k] = v`: replace the value in place if the key exists,
otherwise append the new binding (insertion order preserved). -/
def insertA {κ α : Type} [DecidableEq κ] : List (κ × α) → κ → α → List (κ × α)
  | [], k, v => [(k, v)]
  | e :: rest, k, v => if e.1 = k then (k, v) :: rest else e :: insertA rest k v

/-- Remove every binding for a key (used to model file deletion). -/
def eraseA {κ α : Type} [DecidableEq κ] : List (κ × α) → κ → List (κ × α)
  | [], _ => []
  | e :: rest, k => if e.1 = k then eraseA rest k else e :: eraseA rest k

/-! ### Catalog data model (`vspackages.json`) -/

/-- `p['type']`, either `'PyScript'` or `'Plugin'`. -/
inductive PType : Type
  | pyScript
  | plugin
deriving DecidableEq

/-- The keys a release dictionary may carry binaries under:
`'script'`, `'win32'`, `'win64'`. -/
inductive BinName : Type
  | script
  | win32
  | win64
deriving DecidableEq

/-- One of the two install directories (`py_script_path` / `plugin_path`). -/
inductive InstallDir : Type
  | scriptDir
  | pluginDir
deriving DecidableEq

/-- A release's per-target binary descriptor: `url`, `files`, `hash`. -/
structure BinDesc : Type where
  url : String
  files : List String
  hash : List (String × String)
deriving DecidableEq

/-- One release of a package: its `version` and its binary descriptors. -/
structure Release : Type where
  version : String
  bins : List (BinName × BinDesc)
deriving DecidableEq

/-- One catalog entry. `nspace`/`modulename` model the optional
`'namespace'`/`'modulename'` keys; a missing `'dependencies'` key is the
empty list. -/
structure Package : Type where
  identifier : String
  name : String
  ptype : PType
  nspace : Option String
  modulename : Option String
  dependencies : List String
  releases : List Release
deriving DecidableEq

abbrev Catalog := List Package

/-- External collaborators and process-wide configuration: the active
target (`is_64bits`), the content fetcher (`fetch_url`), the archive
extractor (`7z e -so`), and the two hash algorithms from `hashlib`. -/
structure Env : Type where
  is64 : Bool
  fetch : String → Data
  extract : Data → String → Option Data
  sha1 : Data → String
  sha256 : Data → String

/-- Python exceptions raised by the engine. -/
inductive Err : Type
  | hashMismatch (got : String) (expected : String)
  | keyError
  | notFound (name : String)
  | unsupportedCompression
  | extractionFailure
  | fileNotFound
  | runtimeError
deriving DecidableEq

/-- Mutable program state: the `installed_packages` dict, the filesystem
(keyed by install directory and filename), and a ghost log recording each
successful materialization `(identifier, version)` in order. -/
structure State : Type where
  installed : List (String × String)
  fs : List ((InstallDir × String) × Data)
  log : List (String × String)
deriving DecidableEq

/-- How many times a package identifier appears in the materialization log. -/
def countLog (id : String) (log : List (String × String)) : Nat :=
  (log.filter (fun e => e.1 == id)).length

/-! ### Pure helpers from the source -/

/-- `check_hash(data, ref_hash)`: SHA-1 when the reference hash is 40
characters long, SHA-256 otherwise; returns the verdict together with the
computed and the reference digest. -/
def check_hash (env : Env) (data : Data) (ref_hash : String) : Bool × String × String :=
  if ref_hash.length = 40 then
    let data_hash := env.sha1 data
    (data_hash == ref_hash, data_hash, ref_hash)
  else
    let data_hash := env.sha256 data
    (data_hash == ref_hash, data_hash, ref_hash)

/-- `get_bin_name(p)`. -/
def get_bin_name (env : Env) (p : Package) : BinName :=
  match p.ptype with
  | .pyScript => .script
  | .plugin => if env.is64 then .win64 else .win32

/-- `get_install_path(p)`. -/
def get_install_path (p : Package) : InstallDir :=
  match p.ptype with
  | .pyScript => .scriptDir
  | .plugin => .pluginDir

/-- The characters after the last `'/'` of a character list. -/
def afterLastSlash (cs : List Char) : List Char :=
  cs.foldl (fun acc c => if c = '/' then [] else acc ++ [c]) []

/-- `filename.rsplit('/', 2)[-1]`: the part after the last slash (taking
`[-1]` of a right split is the suffix after the last separator). -/
def strippedName (s : String) : String :=
  String.mk (afterLastSlash s.data)

/-- `s.endswith(t)`. -/
def strEndsWith (s t : String) : Bool :=
  t.data.isSuffixOf s.data

/-- `url.endswith('.7z') or url.endswith('.zip')`. -/
def isArchiveUrl (u : String) : Bool :=
  strEndsWith u ".7z" || strEndsWith u ".zip"

/-- `str.casefold`-style case-insensitive normalization. -/
def strToLower (s : String) : String :=
  String.mk (s.data.map Char.toLower)

/-- `get_package_from_id(id)` (the `required=False` form). -/
def get_package_from_id (cat : Catalog) (id : String) : Option Package :=
  cat.find? (fun p => p.identifier == id)

/-- `get_package_from_plugin_name(name)` (case-insensitive comparison). -/
def get_package_from_plugin_name (cat : Catalog) (name : String) : Option Package :=
  cat.find? (fun p => strToLower p.name == strToLower name)

/-- `get_package_from_namespace(namespace)`. -/
def get_package_from_namespace (cat : Catalog) (ns : String) : Option Package :=
  cat.find? (fun p => match p.nspace with
    | some n => n == ns
    | none => false)

/-- `get_package_from_modulename(modulename)`. -/
def get_package_from_modulename (cat : Catalog) (mn : String) : Option Package :=
  cat.find? (fun p => match p.modulename with
    | some n => n == mn
    | none => false)

/-- `get_package_from_name(name)`: identifier, then namespace, then module
name, then display name; `none` models the final `raise`. -/
def get_package_from_name (cat : Catalog) (name : String) : Option Package :=
  match get_package_from_id cat name with
  | some p => some p
  | none =>
    match get_package_from_namespace cat name with
    | some p => some p
    | none =>
      match get_package_from_modulename cat name with
      | some p => some p
      | none => get_package_from_plugin_name cat name

/-- `is_package_installed(id)`: any entry, including `'Unknown'`, counts. -/
def is_package_installed (st : State) (id : String) : Bool :=
  (lookupA st.installed id).isSome

/-- `get_latest_installable_release(p)`: the first release carrying a
binary descriptor for the active target. -/
def get_latest_installable_release (env : Env) (p : Package) : Option Release :=
  p.releases.find? (fun rel => (lookupA rel.bins (get_bin_name env p)).isSome)

/-- `can_install(p)`. -/
def can_install (env : Env) (p : Package) : Bool :=
  (get_latest_installable_release env p).isSome

/-- `is_package_upgradable(id, force)`; `get_package_from_id(id, True)`
raises when the identifier is not in the catalog. -/
def is_package_upgradable (env : Env) (cat : Catalog) (st : State) (id : String)
    (force : Bool) : Except Err Bool :=
  match get_package_from_id cat id with
  | none => .error (.notFound id)
  | some p =>
    match get_latest_installable_release env p with
    | none => .ok false
    | some rel =>
      match lookupA st.installed id with
      | none => .ok false
      | some v =>
        if force then .ok (v != rel.version)
        else .ok (v != "Unknown" && v != rel.version)

/-! ### Install state detection (`detect_installed_packages`) -/

/-- The inner file loop of `detect_installed_packages`: starting from
`matched = exists = True`, a missing file clears both flags, a hash
mismatch clears `matched`; every declared file is visited. -/
def checkFiles (env : Env) (fs : List ((InstallDir × String) × Data)) (dir : InstallDir)
    (hashes : List (String × String)) : Bool × Bool :=
  hashes.foldl (fun acc fh =>
    match lookupA fs (dir, fh.1) with
    | none => (false, false)
    | some data => if (check_hash env data fh.2).1 then acc else (false, acc.2)) (true, true)

/-- The release loop of `detect_installed_packages` for one package:
releases without a descriptor for the active target are skipped; a full
match records the version and stops; a partial match (all files present,
some mismatching) records `'Unknown'` and keeps scanning. -/
def detectReleases (env : Env) (fs : List ((InstallDir × String) × Data)) (dir : InstallDir)
    (bn : BinName) : List Release → Option String → Option String
  | [], acc => acc
  | v :: rest, acc =>
    match lookupA v.bins bn with
    | none => detectReleases env fs dir bn rest acc
    | some d =>
      let me := checkFiles env fs dir d.hash
      if me.1 then some v.version
      else if me.2 then detectReleases env fs dir bn rest (some "Unknown")
      else detectReleases env fs dir bn rest acc

/-- The final table entry `detect_installed_packages` produces for one
package (`none` = absent). -/
def detectPackage (env : Env) (fs : List ((InstallDir × String) × Data)) (p : Package) :
    Option String :=
  detectReleases env fs (get_install_path p) (get_bin_name env p) p.releases none

/-- One package's contribution to the installed-state table. -/
def detectStep (env : Env) (fs : List ((InstallDir × String) × Data))
    (tbl : List (String × String)) (p : Package) : List (String × String) :=
  match detectPackage env fs p with
  | some v => insertA tbl p.identifier v
  | none => tbl

/-- `detect_installed_packages()`: rebuild the installed-state table from
the catalog and the filesystem. -/
def detect_installed_packages (env : Env) (cat : Catalog)
    (fs : List ((InstallDir × String) × Data)) : List (String × String) :=
  cat.foldl (detectStep env fs) []

/-! ### Materialization (`install_files`) -/

/-- The archive branch of `install_files`: extract each declared member,
verify its hash against the entry for its stripped name, and write it;
extraction failure, a missing hash entry, or a mismatch raises, keeping
the files already written (no rollback). -/
def writeArchiveFiles (env : Env) (d : BinDesc) (data : Data) (dir : InstallDir) :
    List String → State → Except Err Unit × State
  | [], st => (.ok (), st)
  | fn :: rest, st =>
    match env.extract data fn with
    | none => (.error .extractionFailure, st)
    | some content =>
      let sf := strippedName fn
      match lookupA d.hash sf with
      | none => (.error .keyError, st)
      | some refh =>
        let hr := check_hash env content refh
        if hr.1 then
          writeArchiveFiles env d data dir rest
            { st with fs := insertA st.fs (dir, sf) content }
        else
          (.error (.hashMismatch hr.2.1 hr.2.2), st)

/-- `install_files(p)`: fetch the latest installable release's payload,
materialize it (archive extraction or single flat file), and on success
record the new version in the installed table (and the ghost log). -/
def install_files (env : Env) (p : Package) (st : State) : Except Err Unit × State :=
  let dir := get_install_path p
  let bn := get_bin_name env p
  match get_latest_installable_release env p with
  | none => (.error .runtimeError, st)
  | some rel =>
    match lookupA rel.bins bn with
    | none => (.error .keyError, st)
    | some d =>
      let data := env.fetch d.url
      if isArchiveUrl d.url then
        match writeArchiveFiles env d data dir d.files st with
        | (.error e, st1) => (.error e, st1)
        | (.ok _, st1) =>
          (.ok (), { st1 with
            installed := insertA st1.installed p.identifier rel.version,
            log := st1.log ++ [(p.identifier, rel.version)] })
      else
        match d.files with
        | [fn] =>
          let sf := strippedName fn
          match lookupA d.hash sf with
          | none => (.error .keyError, st)
          | some refh =>
            let hr := check_hash env data refh
            if hr.1 then
              (.ok (), { st with
                fs := insertA st.fs (dir, sf) data,
                installed := insertA st.installed p.identifier rel.version,
                log := st.log ++ [(p.identifier, rel.version)] })
            else (.error (.hashMismatch hr.2.1 hr.2.2), st)
        | _ => (.error .unsupportedCompression, st)

/-! ### Recursive installation (`install_package`) -/

/-- One step of the dependency loop inside `install_package`: a latched
error is carried through; otherwise the callback installs the dependency
and its counts are accumulated (`inst = inst + res[0] + res[1]`). -/
def depsStep (f : String → State → Except Err (Nat × Nat) × State)
    (acc : Except Err Nat × State) (dep : String) : Except Err Nat × State :=
  match acc with
  | (.error e, st) => (.error e, st)
  | (.ok n, st) =>
    match f dep st with
    | (.error e, st1) => (.error e, st1)
    | (.ok r, st1) => (.ok (n + r.1 + r.2), st1)

/-- `install_package(name)`, with a fuel bound modelling Python's
recursion limit (fuel exhaustion = `RecursionError`): resolve the name,
skip if no binaries for the target, install dependencies depth-first,
then materialize the package itself unless some entry (a version or
`'Unknown'`) is already recorded for it. -/
def install_package (env : Env) (cat : Catalog) :
    Nat → String → State → Except Err (Nat × Nat) × State
  | 0, _, st => (.error .runtimeError, st)
  | fuel + 1, name, st =>
    match get_package_from_name cat name with
    | none => (.error (.notFound name), st)
    | some p =>
      if can_install env p then
        match p.dependencies.foldl (depsStep (install_package env cat fuel)) (.ok 0, st) with
        | (.error e, st1) => (.error e, st1)
        | (.ok n, st1) =>
          if is_package_installed st1 p.identifier then (.ok (0, n), st1)
          else
            match install_files env p st1 with
            | (.error e, st2) => (.error e, st2)
            | (.ok _, st2) => (.ok (1, n), st2)
      else (.ok (0, 0), st)

/-- The `install` operation's main loop over the requested names. -/
def run_install (env : Env) (cat : Catalog) (fuel : Nat) :
    List String → Nat × Nat → State → Except Err (Nat × Nat) × State
  | [], acc, st => (.ok acc, st)
  | n :: rest, acc, st =>
    match install_package env cat fuel n st with
    | (.error e, st1) => (.error e, st1)
    | (.ok r, st1) => run_install env cat fuel rest (acc.1 + r.1, acc.2 + r.2) st1

/-! ### Upgrading (`upgrade_files`, `upgrade_package`) -/

/-- The dependency loop of `upgrade_files`: only absent dependencies are
installed (presence, not currency, is required). -/
def upgrade_deps (env : Env) (cat : Catalog) (fuel : Nat) :
    List String → State → Except Err Nat × State
  | [], st => (.ok 0, st)
  | dep :: rest, st =>
    if is_package_installed st dep then upgrade_deps env cat fuel rest st
    else
      match install_package env cat fuel dep st with
      | (.error e, st1) => (.error e, st1)
      | (.ok r, st1) =>
        match upgrade_deps env cat fuel rest st1 with
        | (.error e, st2) => (.error e, st2)
        | (.ok n, st2) => (.ok (r.1 + r.2 + n), st2)

/-- `upgrade_files(p)`. -/
def upgrade_files (env : Env) (cat : Catalog) (fuel : Nat) (p : Package) (st : State) :
    Except Err (Nat × Nat) × State :=
  if can_install env p then
    match upgrade_deps env cat fuel p.dependencies st with
    | (.error e, st1) => (.error e, st1)
    | (.ok n, st1) =>
      match install_files env p st1 with
      | (.error e, st2) => (.error e, st2)
      | (.ok _, st2) => (.ok (1, n), st2)
  else (.ok (0, 0), st)

/-- The `'all'` loop of `upgrade_package`: iterate the installed
identifiers, upgrading each upgradable one; an uncaught exception from a
package's upgrade propagates out of the loop. -/
def upgrade_all (env : Env) (cat : Catalog) (fuel : Nat) (force : Bool) :
    List String → Nat × Nat → State → Except Err (Nat × Nat) × State
  | [], acc, st => (.ok acc, st)
  | id :: rest, acc, st =>
    match is_package_upgradable env cat st id force with
    | .error e => (.error e, st)
    | .ok true =>
      match get_package_from_id cat id with
      | none => (.error (.notFound id), st)
      | some p =>
        match upgrade_files env cat fuel p st with
        | (.error e, st1) => (.error e, st1)
        | (.ok r, st1) => upgrade_all env cat fuel force rest (acc.1 + r.1, acc.2 + r.2) st1
    | .ok false => upgrade_all env cat fuel force rest acc st

/-- `upgrade_package(name, force)`. -/
def upgrade_package (env : Env) (cat : Catalog) (fuel : Nat) (name : String) (force : Bool)
    (st : State) : Except Err (Nat × Nat) × State :=
  if name == "all" then
    upgrade_all env cat fuel force (st.installed.map Prod.fst) (0, 0) st
  else
    match get_package_from_name cat name with
    | none => (.error (.notFound name), st)
    | some p =>
      match is_package_upgradable env cat st p.identifier force with
      | .error e => (.error e, st)
      | .ok true => upgrade_files env cat fuel p st
      | .ok false => (.ok (0, 0), st)

/-! ### Uninstalling (`uninstall_files`, `uninstall_package`) -/

/-- The deletion loop of `uninstall_files`: `os.remove` on each file named
in the hash mapping; a missing file raises `FileNotFoundError`. -/
def removeFiles (dir : InstallDir) : List String → State → Except Err Unit × State
  | [], st => (.ok (), st)
  | f :: rest, st =>
    match lookupA st.fs (dir, f) with
    | none => (.error .fileNotFound, st)
    | some _ => removeFiles dir rest { st with fs := eraseA st.fs (dir, f) }

/-- `uninstall_files(p)`: locate the release whose version equals the
recorded one and delete every file in its hash mapping.  The installed
table is not touched. -/
def uninstall_files (env : Env) (p : Package) (st : State) : Except Err Unit × State :=
  let dir := get_install_path p
  let bn := get_bin_name env p
  match lookupA st.installed p.identifier with
  | none => (.error .keyError, st)
  | some ver =>
    match p.releases.find? (fun rel => rel.version == ver) with
    | none => (.error .runtimeError, st)
    | some rel =>
      match lookupA rel.bins bn with
      | none => (.error .keyError, st)
      | some d => removeFiles dir (d.hash.map Prod.fst) st

/-- `uninstall_package(name)`. -/
def uninstall_package (env : Env) (cat : Catalog) (name : String) (st : State) :
    Except Err (Nat × Nat) × State :=
  match get_package_from_name cat name with
  | none => (.error (.notFound name), st)
  | some p =>
    if is_package_installed st p.identifier then
      if lookupA st.installed p.identifier == some "Unknown" then (.ok (0, 0), st)
      else
        match uninstall_files env p st with
        | (.error e, st1) => (.error e, st1)
        | (.ok _, st1) => (.ok (1, 0), st1)
    else (.ok (0, 0), st)

/-! ### Decidable equality for `Except` results -/

instance {ε α : Type} [DecidableEq ε] [DecidableEq α] : DecidableEq (Except ε α) := fun x y =>
  match x, y with
  | .ok a, .ok b => decidable_of_iff (a = b) (by simp)
  | .ok _, .error _ => isFalse (by simp)
  | .error _, .ok _ => isFalse (by simp)
  | .error e, .error f => decidable_of_iff (e = f) (by simp)

/-! ### Concrete test fixtures

A small concrete environment: hashes are modelled by tagging the data,
the fetcher returns the URL tagged with `D:`, the extractor tags the
archive bytes with the member name.  All digests are shorter than 40
characters, so `check_hash` takes the SHA-256 branch on them. -/

def tEnv : Env where
  is64 := true
  fetch := fun u => "D:" ++ u
  extract := fun data fn => some (data ++ "!" ++ fn)
  sha1 := fun d => "sha1-" ++ d
  sha256 := fun d => "h:" ++ d

/-- A package whose latest release would install fine. -/
def a1 : Package where
  identifier := "a"
  name := "A"
  ptype := .plugin
  nspace := some "a"
  modulename := none
  dependencies := []
  releases := [{ version := "2.0", bins := [(.win64, { url := "a2.bin", files := ["a.dll"], hash := [("a.dll", "h:D:a2.bin")] })] }]

/-- A state in which `a` is recorded as `Unknown`. -/
def st1 : State where
  installed := [("a", "Unknown")]
  fs := [((.pluginDir, "a.dll"), "junk")]
  log := []

/-- Descriptor declaring two files, `f1` and `f2`. -/
def d2 : BinDesc := { url := "p.zip", files := ["f1", "f2"], hash := [("f1", "h:AAA"), ("f2", "h:BBB")] }

/-- The only release of `p2`. -/
def relP2 : Release := { version := "1.0", bins := [(.win64, d2)] }

/-- A package declaring two files for its only release. -/
def p2 : Package where
  identifier := "p"
  name := "P"
  ptype := .plugin
  nspace := some "p"
  modulename := none
  dependencies := []
  releases := [relP2]

/-- Filesystem where `f1` exists with mismatching content and `f2` is missing. -/
def fs2 : List ((InstallDir × String) × Data) := [((.pluginDir, "f1"), "XXX")]

/-- Filesystem where both declared files exist but `f1` mismatches. -/
def fs2u : List ((InstallDir × String) × Data) :=
  [((.pluginDir, "f1"), "XXX"), ((.pluginDir, "f2"), "BBB")]

/-- Descriptor whose declared hash (`h:GOOD`) does not match the fetched
payload (computed digest `h:D:a2.bin`). -/
def d3 : BinDesc := { url := "a2.bin", files := ["a.dll"], hash := [("a.dll", "h:GOOD")] }

/-- The only release of `pa3`. -/
def rel3 : Release := { version := "2.0", bins := [(.win64, d3)] }

/-- A package whose latest release's declared hash does not match the
fetched payload (`h:GOOD` vs computed `h:D:a2.bin`). -/
def pa3 : Package where
  identifier := "a"
  name := "A"
  ptype := .plugin
  nspace := some "a"
  modulename := none
  dependencies := []
  releases := [rel3]

/-- A sibling package whose upgrade would succeed. -/
def pb3 : Package where
  identifier := "b"
  name := "B"
  ptype := .plugin
  nspace := some "b"
  modulename := none
  dependencies := []
  releases := [{ version := "2.0", bins := [(.win64, { url := "b2.bin", files := ["b.dll"], hash := [("b.dll", "h:D:b2.bin")] })] }]

/-- Both `a` and `b` installed at version `1.0` (both outdated). -/
def st3 : State where
  installed := [("a", "1.0"), ("b", "1.0")]
  fs := []
  log := []

/-- Dependency package for the re-entrant install scenario. -/
def pc9 : Package where
  identifier := "c9"
  name := "C9"
  ptype := .plugin
  nspace := some "c9"
  modulename := none
  dependencies := []
  releases := [{ version := "1.0", bins := [(.win64, { url := "c9.bin", files := ["c9.dll"], hash := [("c9.dll", "h:D:c9.bin")] })] }]

/-- First dependent package, depending on `c9`. -/
def pa9 : Package where
  identifier := "a9"
  name := "A9"
  ptype := .plugin
  nspace := some "a9"
  modulename := none
  dependencies := ["c9"]
  releases := [{ version := "1.0", bins := [(.win64, { url := "a9.bin", files := ["a9.dll"], hash := [("a9.dll", "h:D:a9.bin")] })] }]

/-- Second dependent package, also depending on `c9`. -/
def pb9 : Package where
  identifier := "b9"
  name := "B9"
  ptype := .plugin
  nspace := some "b9"
  modulename := none
  dependencies := ["c9"]
  releases := [{ version := "1.0", bins := [(.win64, { url := "b9.bin", files := ["b9.dll"], hash := [("b9.dll", "h:D:b9.bin")] })] }]

/-- The empty initial state. -/
def st9 : State where
  installed := []
  fs := []
  log := []

/-- State after materializing `c9` from `st9`. -/
def stc9 : State where
  installed := [("c9", "1.0")]
  fs := [((.pluginDir, "c9.dll"), "D:c9.bin")]
  log := [("c9", "1.0")]

/-- State after additionally materializing `a9`. -/
def sta9 : State where
  installed := [("c9", "1.0"), ("a9", "1.0")]
  fs := [((.pluginDir, "c9.dll"), "D:c9.bin"), ((.pluginDir, "a9.dll"), "D:a9.bin")]
  log := [("c9", "1.0"), ("a9", "1.0")]

/-- State after additionally materializing `b9`. -/
def stb9 : State where
  installed := [("c9", "1.0"), ("a9", "1.0"), ("b9", "1.0")]
  fs := [((.pluginDir, "c9.dll"), "D:c9.bin"), ((.pluginDir, "a9.dll"), "D:a9.bin"), ((.pluginDir, "b9.dll"), "D:b9.bin")]
  log := [("c9", "1.0"), ("a9", "1.0"), ("b9", "1.0")]

/-- Descriptor of `pa6`'s only release. -/
def d6 : BinDesc := { url := "a.bin", files := ["a.dll"], hash := [("a.dll", "h:D:a.bin")] }

/-- The only release of `pa6`. -/
def rel6 : Release := { version := "1.0", bins := [(.win64, d6)] }

/-- A cleanly installable single-file package at version `1.0`. -/
def pa6 : Package where
  identifier := "a"
  name := "A"
  ptype := .plugin
  nspace := some "a"
  modulename := none
  dependencies := []
  releases := [rel6]

/-- `a` installed at `1.0` with its file on disk, plus an unrelated file. -/
def st6 : State where
  installed := [("a", "1.0"), ("b", "2.0")]
  fs := [((.pluginDir, "a.dll"), "D:a.bin"), ((.pluginDir, "b.dll"), "x")]
  log := []

/-- An archive descriptor whose first member verifies but whose second
member's declared hash (`h:WRONG`) does not match the extracted content
(computed digest `h:D:z.zip!bad.dll`). -/
def dz : BinDesc :=
  { url := "z.zip", files := ["good.dll", "bad.dll"],
    hash := [("good.dll", "h:D:z.zip!good.dll"), ("bad.dll", "h:WRONG")] }

/-- The only release of `pz`. -/
def relz : Release := { version := "1.0", bins := [(.win64, dz)] }

/-- A package materialized from an archive with a corrupt second member. -/
def pz : Package where
  identifier := "z"
  name := "Z"
  ptype := .plugin
  nspace := some "z"
  modulename := none
  dependencies := []
  releases := [relz]

/-- The descriptor shared by both releases of `p8`. -/
def d8 : BinDesc := { url := "p8.bin", files := ["p8.dll"], hash := [("p8.dll", "h:P8")] }

/-- The first release of `p8`. -/
def r81 : Release := { version := "1.0", bins := [(.win64, d8)] }

/-- The second release of `p8`, bitwise identical payload. -/
def r82 : Release := { version := "2.0", bins := [(.win64, d8)] }

/-- A package with two releases sharing an identical binary descriptor. -/
def p8 : Package where
  identifier := "p8"
  name := "P8"
  ptype := .plugin
  nspace := some "p8"
  modulename := none
  dependencies := []
  releases := [r81, r82]

/-- Filesystem on which both releases of `p8` fully match. -/
def fs8 : List ((InstallDir × String) × Data) := [((.pluginDir, "p8.dll"), "P8")]

/-! ### Association-list lemmas -/

theorem lookupA_insertA_self {κ α : Type} [DecidableEq κ] (l : List (κ × α)) (k : κ) (v : α) :
    lookupA (insertA l k v) k = some v := by
  induction l with
  | nil => simp [insertA, lookupA]
  | cons e rest ih =>
    by_cases h : e.1 = k
    · simp [insertA, h, lookupA]
    · simp [insertA, h, lookupA, ih]

theorem lookupA_insertA_ne {κ α : Type} [DecidableEq κ] (l : List (κ × α)) (k k' : κ) (v : α)
    (h : k' ≠ k) : lookupA (insertA l k v) k' = lookupA l k' := by
  induction l with
  | nil => simp [insertA, lookupA, Ne.symm h]
  | cons e rest ih =>
    by_cases he : e.1 = k
    · simp [insertA, he, lookupA, Ne.symm h]
    · simp only [insertA, if_neg he, lookupA, ih]

theorem lookupA_eraseA {κ α : Type} [DecidableEq κ] (l : List (κ × α)) (k k' : κ) :
    lookupA (eraseA l k) k' = if k' = k then none else lookupA l k' := by
  induction l with
  | nil => simp [eraseA, lookupA]
  | cons e rest ih =>
    simp only [eraseA]
    by_cases he : e.1 = k
    · rw [if_pos he, ih]
      by_cases hk : k' = k
      · simp [hk]
      · rw [if_neg hk, if_neg hk]
        have hek : ¬(e.1 = k') := by rw [he]; exact fun hh => hk hh.symm
        rw [lookupA, if_neg hek]
    · rw [if_neg he]
      by_cases hek : e.1 = k'
      · have hk : ¬(k' = k) := fun hh => he (hek.trans hh)
        rw [if_neg hk, lookupA, if_pos hek, lookupA, if_pos hek]
      · rw [lookupA, if_neg hek, ih, lookupA, if_neg hek]

theorem countLog_append (id : String) (l m : List (String × String)) :
    countLog id (l ++ m) = countLog id l + countLog id m := by
  simp [countLog, List.filter_append]

theorem countLog_single_ne (id a v : String) (h : a ≠ id) : countLog id [(a, v)] = 0 := by
  have hb : (a == id) = false := by simp [h]
  simp [countLog, List.filter, hb]

theorem countLog_single_eq (id v : String) : countLog id [(id, v)] = 1 := by
  simp [countLog, List.filter]

/-! ### State-shape lemmas for materialization -/

/-- The archive-extraction loop touches only the filesystem: the installed
table and the log come out unchanged on every path. -/
theorem writeArchiveFiles_state (env : Env) (d : BinDesc) (data : Data) (dir : InstallDir) :
    ∀ (files : List String) (st : State),
      (writeArchiveFiles env d data dir files st).2.installed = st.installed ∧
      (writeArchiveFiles env d data dir files st).2.log = st.log := by
  intro files
  induction files with
  | nil => intro st; simp [writeArchiveFiles]
  | cons fn rest ih =>
    intro st
    simp only [writeArchiveFiles]
    cases env.extract data fn with
    | none => simp
    | some content =>
      simp only
      cases lookupA d.hash (strippedName fn) with
      | none => simp
      | some refh =>
        simp only
        by_cases hh : (check_hash env content refh).1 = true
        · simpa [hh] using ih { st with fs := insertA st.fs (dir, strippedName fn) content }
        · simp [hh]

/-- `install_files` either succeeds, appending exactly one materialization
of the latest installable release and recording its version, or raises,
leaving the installed table and the log unchanged. -/
theorem install_files_cases (env : Env) (p : Package) (st : State) :
    (∃ rel st1, get_latest_installable_release env p = some rel ∧
      install_files env p st = (.ok (), st1) ∧
      st1.installed = insertA st.installed p.identifier rel.version ∧
      st1.log = st.log ++ [(p.identifier, rel.version)]) ∨
    (∃ e st1, install_files env p st = (.error e, st1) ∧
      st1.installed = st.installed ∧ st1.log = st.log) := by
  cases hrel : get_latest_installable_release env p with
  | none =>
    right; exact ⟨.runtimeError, st, by simp [install_files, hrel], rfl, rfl⟩
  | some rel =>
    cases hbin : lookupA rel.bins (get_bin_name env p) with
    | none =>
      right; exact ⟨.keyError, st, by simp [install_files, hrel, hbin], rfl, rfl⟩
    | some d =>
      by_cases harc : isArchiveUrl d.url = true
      · rcases hw : writeArchiveFiles env d (env.fetch d.url) (get_install_path p) d.files st
          with ⟨res, st1⟩
        have hws := writeArchiveFiles_state env d (env.fetch d.url) (get_install_path p) d.files st
        rw [hw] at hws
        simp only at hws
        cases res with
        | error e =>
          right
          exact ⟨e, st1, by simp [install_files, hrel, hbin, harc, hw], hws.1, hws.2⟩
        | ok u =>
          left
          refine ⟨rel, State.mk (insertA st1.installed p.identifier rel.version) st1.fs
            (st1.log ++ [(p.identifier, rel.version)]), rfl, ?_, ?_, ?_⟩
          · cases u; simp [install_files, hrel, hbin, harc, hw]
          · simp [hws.1]
          · simp [hws.2]
      · cases hfe : d.files with
        | nil =>
          right
          exact ⟨.unsupportedCompression, st,
            by simp [install_files, hrel, hbin, harc, hfe], rfl, rfl⟩
        | cons fn rest =>
          cases rest with
          | cons f2 fr =>
            right
            exact ⟨.unsupportedCompression, st,
              by simp [install_files, hrel, hbin, harc, hfe], rfl, rfl⟩
          | nil =>
            cases hh : lookupA d.hash (strippedName fn) with
            | none =>
              right
              exact ⟨.keyError, st,
                by simp [install_files, hrel, hbin, harc, hfe, hh], rfl, rfl⟩
            | some refh =>
              by_cases hok : (check_hash env (env.fetch d.url) refh).1 = true
              · left
                refine ⟨rel, State.mk (insertA st.installed p.identifier rel.version)
                  (insertA st.fs (get_install_path p, strippedName fn) (env.fetch d.url))
                  (st.log ++ [(p.identifier, rel.version)]), rfl, ?_, rfl, rfl⟩
                simp [install_files, hrel, hbin, harc, hfe, hh, hok]
              · right
                exact ⟨.hashMismatch (check_hash env (env.fetch d.url) refh).2.1
                  (check_hash env (env.fetch d.url) refh).2.2, st,
                  by simp [install_files, hrel, hbin, harc, hfe, hh, hok], rfl, rfl⟩

/-! ### Preservation: an installed package is never re-materialized -/

/-- The dependency fold preserves "id has an entry" and the number of
materializations of `id`, provided the per-dependency installer does. -/
theorem depsFold_pres (f : String → State → Except Err (Nat × Nat) × State)
    (hf : ∀ name st id, (lookupA st.installed id).isSome = true →
      (lookupA (f name st).2.installed id).isSome = true ∧
      countLog id (f name st).2.log = countLog id st.log) :
    ∀ (deps : List String) (r : Except Err Nat) (st : State) (id : String),
      (lookupA st.installed id).isSome = true →
      (lookupA (deps.foldl (depsStep f) (r, st)).2.installed id).isSome = true ∧
      countLog id (deps.foldl (depsStep f) (r, st)).2.log = countLog id st.log := by
  intro deps
  induction deps with
  | nil => intro r st id h; exact ⟨h, rfl⟩
  | cons dep rest ih =>
    intro r st id h
    rw [List.foldl_cons]
    cases r with
    | error e => simpa [depsStep] using ih (.error e) st id h
    | ok n =>
      rcases hfd : f dep st with ⟨res, st1⟩
      have hp := hf dep st id h
      rw [hfd] at hp
      simp only at hp
      cases res with
      | error e =>
        have := ih (.error e) st1 id hp.1
        simp only [depsStep, hfd]
        exact ⟨this.1, this.2.trans hp.2⟩
      | ok ab =>
        have := ih (.ok (n + ab.1 + ab.2)) st1 id hp.1
        simp only [depsStep, hfd]
        exact ⟨this.1, this.2.trans hp.2⟩

/-- `install_package` preserves any recorded entry and never materializes a
package whose identifier already has an entry (a version or `'Unknown'`). -/
theorem install_package_pres (env : Env) (cat : Catalog) :
    ∀ (fuel : Nat) (name : String) (st : State) (id : String),
      (lookupA st.installed id).isSome = true →
      (lookupA (install_package env cat fuel name st).2.installed id).isSome = true ∧
      countLog id (install_package env cat fuel name st).2.log = countLog id st.log := by
  intro fuel
  induction fuel with
  | zero => intro name st id h; simpa [install_package] using h
  | succ fuel ih =>
    intro name st id h
    cases hgp : get_package_from_name cat name with
    | none =>
      have heq : install_package env cat (fuel + 1) name st = (.error (.notFound name), st) := by
        simp [install_package, hgp]
      rw [heq]; exact ⟨h, rfl⟩
    | some p =>
      by_cases hci : can_install env p = true
      · rcases hfold : p.dependencies.foldl (depsStep (install_package env cat fuel))
            (.ok 0, st) with ⟨res, st1⟩
        have hp := depsFold_pres (install_package env cat fuel) ih p.dependencies (.ok 0) st id h
        rw [hfold] at hp
        simp only at hp
        cases res with
        | error e =>
          have heq : install_package env cat (fuel + 1) name st = (.error e, st1) := by
            simp [install_package, hgp, hci, hfold]
          rw [heq]; exact hp
        | ok n =>
          by_cases hinst : is_package_installed st1 p.identifier = true
          · have heq : install_package env cat (fuel + 1) name st = (.ok (0, n), st1) := by
              simp [install_package, hgp, hci, hfold, hinst]
            rw [heq]; exact hp
          · have hne : p.identifier ≠ id := fun hh =>
              hinst (by rw [is_package_installed, hh]; exact hp.1)
            rcases install_files_cases env p st1 with
              ⟨rel, st2, _, hif, hinst2, hlog2⟩ | ⟨e, st2, hif, hinst2, hlog2⟩
            · have heq : install_package env cat (fuel + 1) name st = (.ok (1, n), st2) := by
                simp [install_package, hgp, hci, hfold, hinst, hif]
              rw [heq]
              refine ⟨?_, ?_⟩
              · rw [hinst2, lookupA_insertA_ne _ _ _ _ (Ne.symm hne)]; exact hp.1
              · rw [hlog2, countLog_append, countLog_single_ne id p.identifier rel.version hne]
                simpa using hp.2
            · have heq : install_package env cat (fuel + 1) name st = (.error e, st2) := by
                simp [install_package, hgp, hci, hfold, hinst, hif]
              rw [heq]
              exact ⟨hinst2 ▸ hp.1, by rw [hlog2]; exact hp.2⟩
      · have heq : install_package env cat (fuel + 1) name st = (.ok (0, 0), st) := by
          simp [install_package, hgp, hci]
        rw [heq]; exact ⟨h, rfl⟩

/-! ### Small facts about `check_hash` and the archive loop -/

theorem check_hash_ref (env : Env) (data : Data) (ref : String) :
    (check_hash env data ref).2.2 = ref := by
  unfold check_hash
  split <;> rfl

/-- Any hash mismatch raised by the archive loop carries the verdict and
both digests of a real failed `check_hash` call. -/
theorem writeArchiveFiles_mismatch (env : Env) (d : BinDesc) (data : Data) (dir : InstallDir) :
    ∀ (files : List String) (st : State) (g x : String) (st1 : State),
      writeArchiveFiles env d data dir files st = (.error (.hashMismatch g x), st1) →
      ∃ c, check_hash env c x = (false, g, x) := by
  intro files
  induction files with
  | nil =>
    intro st g x st1 h
    rw [writeArchiveFiles] at h
    exact absurd (congrArg Prod.fst h) (by simp)
  | cons fn rest ih =>
    intro st g x st1 h
    rw [writeArchiveFiles] at h
    cases hex : env.extract data fn with
    | none => rw [hex] at h; exact absurd (congrArg Prod.fst h) (by simp)
    | some content =>
      rw [hex] at h
      simp only at h
      cases hh : lookupA d.hash (strippedName fn) with
      | none => rw [hh] at h; exact absurd (congrArg Prod.fst h) (by simp)
      | some refh =>
        rw [hh] at h
        simp only at h
        by_cases hok : (check_hash env content refh).1 = true
        · rw [if_pos hok] at h
          exact ih _ g x st1 h
        · rw [if_neg hok] at h
          have h1 : (check_hash env content refh).1 = false := by simpa using hok
          rw [Prod.mk.injEq] at h
          simp only [Except.error.injEq, Err.hashMismatch.injEq] at h
          obtain ⟨⟨hga, hxa⟩, hst⟩ := h
          refine ⟨content, ?_⟩
          rw [← hga, ← hxa, check_hash_ref]
          exact Prod.ext h1 (Prod.ext rfl (check_hash_ref env content refh))

/-- Forward direction for the archive loop: if every member before `fn`
extracts and verifies, and `fn` extracts but its hash differs from the
declared one, the loop fails with exactly that mismatch error; only the
filesystem (the already-written members) differs in the returned state. -/
theorem writeArchiveFiles_mismatch_fails (env : Env) (d : BinDesc) (data : Data)
    (dir : InstallDir) :
    ∀ (fs1 : List String) (fn : String) (fs2 : List String) (st : State)
      (content refh : String),
      (∀ f ∈ fs1, ∃ c rh, env.extract data f = some c ∧
        lookupA d.hash (strippedName f) = some rh ∧ (check_hash env c rh).1 = true) →
      env.extract data fn = some content →
      lookupA d.hash (strippedName fn) = some refh →
      (check_hash env content refh).1 = false →
      ∃ st1, writeArchiveFiles env d data dir (fs1 ++ fn :: fs2) st =
        (.error (.hashMismatch (check_hash env content refh).2.1 refh), st1) ∧
        st1.installed = st.installed ∧ st1.log = st.log := by
  intro fs1
  induction fs1 with
  | nil =>
    intro fn fs2 st content refh _ hex hh hne
    refine ⟨st, ?_, rfl, rfl⟩
    rw [List.nil_append, writeArchiveFiles, hex]
    simp only [hh]
    rw [if_neg (by simp [hne])]
    rw [check_hash_ref]
  | cons f fs1' ih =>
    intro fn fs2 st content refh hall hex hh hne
    obtain ⟨c, rh, hexf, hhf, hokf⟩ := hall f (List.mem_cons_self f fs1')
    obtain ⟨st1, heq, hinst, hlog⟩ := ih fn fs2
      { st with fs := insertA st.fs (dir, strippedName f) c } content refh
      (fun g hg => hall g (List.mem_cons_of_mem f hg)) hex hh hne
    refine ⟨st1, ?_, hinst, hlog⟩
    rw [List.cons_append, writeArchiveFiles, hexf]
    simp only [hhf]
    rw [if_pos hokf]
    exact heq

/-! ### Claim C10 -/

/-- Claim C10: hash verification selects the algorithm solely by the
length of the catalog-declared reference hash — exactly 40 characters
selects SHA-1, anything else selects SHA-256 — and returns the equality
verdict together with the computed and the declared digest. -/
theorem check_hash_selects_by_length (env : Env) (data : Data) (ref : String) :
    (ref.length = 40 →
      check_hash env data ref = (env.sha1 data == ref, env.sha1 data, ref)) ∧
    (ref.length ≠ 40 →
      check_hash env data ref = (env.sha256 data == ref, env.sha256 data, ref)) := by
  constructor
  · intro h; simp [check_hash, h]
  · intro h; simp [check_hash, h]

/-- Witness for C10: a 40-character reference selects SHA-1, a shorter
one selects SHA-256, on the concrete test environment. -/
theorem check_hash_selects_by_length_witness :
    check_hash tEnv "x" "0123456789012345678901234567890123456789" =
      (tEnv.sha1 "x" == "0123456789012345678901234567890123456789", tEnv.sha1 "x",
        "0123456789012345678901234567890123456789") ∧
    check_hash tEnv "x" "h:y" = (tEnv.sha256 "x" == "h:y", tEnv.sha256 "x", "h:y") :=
  ⟨(check_hash_selects_by_length tEnv "x" _).1 (by decide),
   (check_hash_selects_by_length tEnv "x" _).2 (by decide)⟩

/-! ### Claim C4 -/

/-- Claim C4: whenever materialization raises a hash mismatch, the error
carries the actual and the expected digest of a genuinely failed
`check_hash` call and the installed table is left unchanged; in the
single-flat-file layout a failed payload check raises exactly that error
with no state change at all; and in the archive layout, the first
extracted member whose hash differs from its declared hash raises exactly
that member's mismatch error, with the installed table (and log)
unchanged — only the previously verified members' writes remain. -/
theorem hash_mismatch_reports_and_blocks (env : Env) (p : Package) (st : State) :
    (∀ g x st1, install_files env p st = (.error (.hashMismatch g x), st1) →
      (∃ c, check_hash env c x = (false, g, x)) ∧ st1.installed = st.installed) ∧
    (∀ rel d fn refh, get_latest_installable_release env p = some rel →
      lookupA rel.bins (get_bin_name env p) = some d →
      isArchiveUrl d.url = false → d.files = [fn] →
      lookupA d.hash (strippedName fn) = some refh →
      (check_hash env (env.fetch d.url) refh).1 = false →
      install_files env p st =
        (.error (.hashMismatch (check_hash env (env.fetch d.url) refh).2.1 refh), st)) ∧
    (∀ rel d fs1 fn fs2 content refh, get_latest_installable_release env p = some rel →
      lookupA rel.bins (get_bin_name env p) = some d →
      isArchiveUrl d.url = true → d.files = fs1 ++ fn :: fs2 →
      (∀ f ∈ fs1, ∃ c rh, env.extract (env.fetch d.url) f = some c ∧
        lookupA d.hash (strippedName f) = some rh ∧ (check_hash env c rh).1 = true) →
      env.extract (env.fetch d.url) fn = some content →
      lookupA d.hash (strippedName fn) = some refh →
      (check_hash env content refh).1 = false →
      ∃ st1, install_files env p st =
        (.error (.hashMismatch (check_hash env content refh).2.1 refh), st1) ∧
        st1.installed = st.installed ∧ st1.log = st.log) := by
  refine ⟨?_, ?_, ?_⟩
  · intro g x st1 h
    cases hrel : get_latest_installable_release env p with
    | none =>
      have hif : install_files env p st = (.error .runtimeError, st) := by
        simp [install_files, hrel]
      rw [hif] at h
      exact absurd h (by simp)
    | some rel =>
      cases hbin : lookupA rel.bins (get_bin_name env p) with
      | none =>
        have hif : install_files env p st = (.error .keyError, st) := by
          simp [install_files, hrel, hbin]
        rw [hif] at h
        exact absurd h (by simp)
      | some d =>
        by_cases harc : isArchiveUrl d.url = true
        · rcases hw : writeArchiveFiles env d (env.fetch d.url) (get_install_path p) d.files st
            with ⟨res, st2⟩
          have hws := writeArchiveFiles_state env d (env.fetch d.url) (get_install_path p)
            d.files st
          rw [hw] at hws
          simp only at hws
          cases res with
          | error e =>
            have hif : install_files env p st = (.error e, st2) := by
              simp [install_files, hrel, hbin, harc, hw]
            rw [hif] at h
            rw [Prod.mk.injEq] at h
            obtain ⟨he, hst⟩ := h
            injection he with he'
            subst he'
            subst hst
            exact ⟨writeArchiveFiles_mismatch env d (env.fetch d.url) (get_install_path p)
              d.files st g x st2 hw, hws.1⟩
          | ok u =>
            have hif : install_files env p st = (.ok (), State.mk
                (insertA st2.installed p.identifier rel.version) st2.fs
                (st2.log ++ [(p.identifier, rel.version)])) := by
              cases u; simp [install_files, hrel, hbin, harc, hw]
            rw [hif] at h
            exact absurd h (by simp)
        · cases hfe : d.files with
          | nil =>
            have hif : install_files env p st = (.error .unsupportedCompression, st) := by
              simp [install_files, hrel, hbin, harc, hfe]
            rw [hif] at h
            exact absurd h (by simp)
          | cons fn rest =>
            cases rest with
            | cons f2 fr =>
              have hif : install_files env p st = (.error .unsupportedCompression, st) := by
                simp [install_files, hrel, hbin, harc, hfe]
              rw [hif] at h
              exact absurd h (by simp)
            | nil =>
              cases hh : lookupA d.hash (strippedName fn) with
              | none =>
                have hif : install_files env p st = (.error .keyError, st) := by
                  simp [install_files, hrel, hbin, harc, hfe, hh]
                rw [hif] at h
                exact absurd h (by simp)
              | some refh =>
                by_cases hok : (check_hash env (env.fetch d.url) refh).1 = true
                · have hif : install_files env p st = (.ok (), State.mk
                      (insertA st.installed p.identifier rel.version)
                      (insertA st.fs (get_install_path p, strippedName fn) (env.fetch d.url))
                      (st.log ++ [(p.identifier, rel.version)])) := by
                    simp [install_files, hrel, hbin, harc, hfe, hh, hok]
                  rw [hif] at h
                  exact absurd h (by simp)
                · have h1 : (check_hash env (env.fetch d.url) refh).1 = false := by
                    simpa using hok
                  have hif : install_files env p st =
                      (.error (.hashMismatch (check_hash env (env.fetch d.url) refh).2.1
                        (check_hash env (env.fetch d.url) refh).2.2), st) := by
                    simp [install_files, hrel, hbin, harc, hfe, hh, hok]
                  rw [hif] at h
                  rw [Prod.mk.injEq] at h
                  obtain ⟨he, hst⟩ := h
                  simp only [Except.error.injEq, Err.hashMismatch.injEq] at he
                  obtain ⟨hga, hxa⟩ := he
                  subst hst
                  refine ⟨⟨env.fetch d.url, ?_⟩, rfl⟩
                  rw [← hga, ← hxa, check_hash_ref]
                  exact Prod.ext h1 (Prod.ext rfl (check_hash_ref env (env.fetch d.url) refh))
  · intro rel d fn refh hrel hbin harc hfe hh hne
    have hif : install_files env p st =
        (.error (.hashMismatch (check_hash env (env.fetch d.url) refh).2.1
          (check_hash env (env.fetch d.url) refh).2.2), st) := by
      simp [install_files, hrel, hbin, harc, hfe, hh, hne]
    rw [hif, check_hash_ref]
  · intro rel d fs1 fn fs2 content refh hrel hbin harc hfe hall hex hh hne
    obtain ⟨st1, hw, hinst, hlog⟩ := writeArchiveFiles_mismatch_fails env d (env.fetch d.url)
      (get_install_path p) fs1 fn fs2 st content refh hall hex hh hne
    refine ⟨st1, ?_, hinst, hlog⟩
    rw [← hfe] at hw
    simp [install_files, hrel, hbin, harc, hw]

/-- Witness for C4, exercising both layouts: the flat package `pa3` fails
with the mismatch error carrying computed digest `h:D:a2.bin` vs declared
`h:GOOD` and an untouched state; and the archive package `pz`, whose
first member verifies, fails on its corrupt second member with computed
digest `h:D:z.zip!bad.dll` vs declared `h:WRONG`, leaving the installed
table and log unchanged. -/
theorem hash_mismatch_reports_and_blocks_witness :
    (install_files tEnv pa3 st3 =
      (.error (.hashMismatch (check_hash tEnv (tEnv.fetch d3.url) "h:GOOD").2.1 "h:GOOD"),
        st3)) ∧
    (∃ st1, install_files tEnv pz st9 =
      (.error (.hashMismatch (check_hash tEnv "D:z.zip!bad.dll" "h:WRONG").2.1 "h:WRONG"),
        st1) ∧
      st1.installed = st9.installed ∧ st1.log = st9.log) :=
  ⟨(hash_mismatch_reports_and_blocks tEnv pa3 st3).2.1 rel3 d3 "a.dll" "h:GOOD"
    (by decide) (by decide) (by decide) (by decide) (by decide) (by decide),
   (hash_mismatch_reports_and_blocks tEnv pz st9).2.2 relz dz ["good.dll"] "bad.dll" []
    "D:z.zip!bad.dll" "h:WRONG" (by decide) (by decide) (by decide) (by decide)
    (by
      intro f hf
      simp only [List.mem_singleton] at hf
      subst hf
      exact ⟨"D:z.zip!good.dll", "h:D:z.zip!good.dll", by decide, by decide, by decide⟩)
    (by decide) (by decide) (by decide)⟩

/-! ### Claim C5 -/

/-- Claim C5: a package is upgradable iff it has an entry in the
installed-state table, some release carries a binary descriptor for the
active target (so a latest installable release exists), and the recorded
state differs from that release's version; with `force = false` a package
recorded as `Unknown` is additionally never upgradable. -/
theorem upgradable_iff (env : Env) (cat : Catalog) (st : State) (id : String) (force : Bool)
    (p : Package) (hp : get_package_from_id cat id = some p) :
    is_package_upgradable env cat st id force = .ok true ↔
      (∃ v rel, lookupA st.installed id = some v ∧
        get_latest_installable_release env p = some rel ∧
        v ≠ rel.version ∧ (force = false → v ≠ "Unknown")) := by
  simp only [is_package_upgradable, hp]
  cases hlat : get_latest_installable_release env p with
  | none => simp
  | some rel =>
    cases hv : lookupA st.installed id with
    | none => simp
    | some v =>
      cases force with
      | true => simp [bne_iff_ne]
      | false => simp [bne_iff_ne, and_comm]

/-- Witness for C5: in the concrete outdated state, `a` is upgradable
without force, and the characterization's right-hand side holds. -/
theorem upgradable_iff_witness :
    ∃ v rel, lookupA st3.installed "a" = some v ∧
      get_latest_installable_release tEnv pa3 = some rel ∧
      v ≠ rel.version ∧ (false = false → v ≠ "Unknown") :=
  (upgradable_iff tEnv [pa3, pb3] st3 "a" false pa3 (by decide)).1 (by decide)

/-! ### Claim C7 -/

theorem removeFiles_installed (dir : InstallDir) :
    ∀ (files : List String) (st : State),
      (removeFiles dir files st).2.installed = st.installed ∧
      (removeFiles dir files st).2.log = st.log := by
  intro files
  induction files with
  | nil => intro st; exact ⟨rfl, rfl⟩
  | cons f rest ih =>
    intro st
    rw [removeFiles]
    cases lookupA st.fs (dir, f) with
    | none => exact ⟨rfl, rfl⟩
    | some _ => simpa using ih { st with fs := eraseA st.fs (dir, f) }

theorem uninstall_files_installed (env : Env) (p : Package) (st : State) :
    (uninstall_files env p st).2.installed = st.installed := by
  rw [uninstall_files]
  cases lookupA st.installed p.identifier with
  | none => rfl
  | some ver =>
    simp only
    cases p.releases.find? (fun rel => rel.version == ver) with
    | none => rfl
    | some rel =>
      simp only
      cases lookupA rel.bins (get_bin_name env p) with
      | none => rfl
      | some d => exact (removeFiles_installed (get_install_path p) (d.hash.map Prod.fst) st).1

/-- Claim C7 (amended): `uninstall_package` never modifies the
installed-state table — after a successful uninstall the package is still
recorded at the uninstalled version for the rest of the run; only the
files are deleted. -/
theorem uninstall_keeps_table (env : Env) (cat : Catalog) (name : String) (st : State) :
    (uninstall_package env cat name st).2.installed = st.installed := by
  rw [uninstall_package]
  cases hgp : get_package_from_name cat name with
  | none => rfl
  | some p =>
    simp only
    by_cases hin : is_package_installed st p.identifier = true
    · rw [if_pos hin]
      by_cases hu : (lookupA st.installed p.identifier == some "Unknown") = true
      · rw [if_pos hu]
      · rw [if_neg hu]
        rcases huf : uninstall_files env p st with ⟨res, st1⟩
        have := uninstall_files_installed env p st
        rw [huf] at this
        cases res with
        | error e => simpa using this
        | ok u => simpa using this
    · rw [if_neg hin]

/-- Claim C7 counterexample: uninstalling `a` (installed at `1.0`) succeeds
with `(1, 0)` and deletes its file, yet the installed-state table still
records `a ↦ 1.0`. -/
theorem uninstall_leaves_entry :
    (uninstall_package tEnv [pa6] "a" st6).1 = .ok (1, 0) ∧
    lookupA (uninstall_package tEnv [pa6] "a" st6).2.fs (.pluginDir, "a.dll") = none ∧
    lookupA (uninstall_package tEnv [pa6] "a" st6).2.installed "a" = some "1.0" := by
  decide

/-! ### Claim C1 -/

/-- Claim C1 (amended): any recorded entry — a specific version or
`Unknown` — blocks re-materialization by `install_package`: the run
materializes the target package zero further times and, when it returns
normally, reports `0` packages installed (dependencies may still be
counted).  `Unknown` is treated exactly like a recorded version here. -/
theorem install_recorded_entry_blocks (env : Env) (cat : Catalog) (fuel : Nat) (name : String)
    (st : State) (p : Package) (v : String)
    (hp : get_package_from_name cat name = some p)
    (hv : lookupA st.installed p.identifier = some v)
    (hc : can_install env p = true) :
    ∀ r st1, install_package env cat (fuel + 1) name st = (r, st1) →
      countLog p.identifier st1.log = countLog p.identifier st.log ∧
      ∀ a b, r = .ok (a, b) → a = 0 := by
  intro r st1 heq
  have hsome : (lookupA st.installed p.identifier).isSome = true := by rw [hv]; rfl
  rcases hfold : p.dependencies.foldl (depsStep (install_package env cat fuel))
      (.ok 0, st) with ⟨res, st2⟩
  have hpres := depsFold_pres (install_package env cat fuel)
    (install_package_pres env cat fuel) p.dependencies (.ok 0) st p.identifier hsome
  rw [hfold] at hpres
  simp only at hpres
  cases res with
  | error e =>
    have heq2 : install_package env cat (fuel + 1) name st = (.error e, st2) := by
      simp [install_package, hp, hc, hfold]
    rw [heq] at heq2
    rw [Prod.mk.injEq] at heq2
    obtain ⟨hr, hst⟩ := heq2
    subst hr
    subst hst
    exact ⟨hpres.2, fun a b hab => absurd hab (by simp)⟩
  | ok n =>
    have hinst : is_package_installed st2 p.identifier = true := hpres.1
    have heq2 : install_package env cat (fuel + 1) name st = (.ok (0, n), st2) := by
      simp [install_package, hp, hc, hfold, hinst]
    rw [heq] at heq2
    rw [Prod.mk.injEq] at heq2
    obtain ⟨hr, hst⟩ := heq2
    subst hst
    refine ⟨hpres.2, fun a b hab => ?_⟩
    rw [hr] at hab
    injection hab with hab'
    exact (congrArg Prod.fst hab').symm

/-- Witness for the amended C1 on the `Unknown` fixture: install reports
`(0, 0)` and materializes nothing. -/
theorem install_recorded_entry_blocks_witness :
    countLog a1.identifier st1.log = countLog a1.identifier st1.log ∧
    ∀ a b, (Except.ok ((0 : Nat), (0 : Nat)) : Except Err (Nat × Nat)) = .ok (a, b) → a = 0 :=
  install_recorded_entry_blocks tEnv [a1] 1 "a" st1 a1 "Unknown"
    (by decide) (by decide) (by decide) (.ok (0, 0)) st1 (by decide)

/-- Claim C1 counterexample: package `a` has an `Unknown` entry and an
installable latest release, yet `install_package` does not materialize it:
the state is returned unchanged (no file written, no log entry, the table
still says `Unknown`) and the result counts `(0, 0)`. -/
theorem install_unknown_blocked :
    lookupA st1.installed "a" = some "Unknown" ∧
    can_install tEnv a1 = true ∧
    install_package tEnv [a1] 2 "a" st1 = (.ok (0, 0), st1) := by
  decide

/-! ### Detection lemmas -/

/-- Release scan under "no release fully matches": the accumulator can only
stay or become `Unknown`; it becomes `Unknown` exactly when some scanned
release with a descriptor has all of its files present. -/
theorem detectReleases_no_match (env : Env) (fs : List ((InstallDir × String) × Data))
    (dir : InstallDir) (bn : BinName) :
    ∀ (rels : List Release) (acc : Option String),
      (∀ r ∈ rels, ∀ d, lookupA r.bins bn = some d → (checkFiles env fs dir d.hash).1 = false) →
      ((acc = some "Unknown" → detectReleases env fs dir bn rels acc = some "Unknown") ∧
       ((∃ r ∈ rels, ∃ d, lookupA r.bins bn = some d ∧ (checkFiles env fs dir d.hash).2 = true) →
         detectReleases env fs dir bn rels acc = some "Unknown") ∧
       ((∀ r ∈ rels, ∀ d, lookupA r.bins bn = some d → (checkFiles env fs dir d.hash).2 = false) →
         detectReleases env fs dir bn rels acc = acc)) := by
  intro rels
  induction rels with
  | nil =>
    intro acc hnm
    refine ⟨fun h => by rw [detectReleases, h], fun h => ?_, fun _ => rfl⟩
    obtain ⟨r, hr, _⟩ := h
    exact absurd hr (List.not_mem_nil r)
  | cons v rest ih =>
    intro acc hnm
    have hnmr : ∀ r ∈ rest, ∀ d, lookupA r.bins bn = some d →
        (checkFiles env fs dir d.hash).1 = false :=
      fun r hr d hd => hnm r (List.mem_cons_of_mem v hr) d hd
    cases hb : lookupA v.bins bn with
    | none =>
      have hstep : detectReleases env fs dir bn (v :: rest) acc =
          detectReleases env fs dir bn rest acc := by
        rw [detectReleases, hb]
      rw [hstep]
      refine ⟨(ih acc hnmr).1, fun hex => ?_, fun hall => ?_⟩
      · obtain ⟨r, hr, d, hd, hex2⟩ := hex
        rcases List.mem_cons.mp hr with hrv | hrr
        · subst hrv; rw [hb] at hd; exact absurd hd (by simp)
        · exact (ih acc hnmr).2.1 ⟨r, hrr, d, hd, hex2⟩
      · exact (ih acc hnmr).2.2 fun r hr d hd => hall r (List.mem_cons_of_mem v hr) d hd
    | some d =>
      have hm : (checkFiles env fs dir d.hash).1 = false := hnm v (List.mem_cons_self v rest) d hb
      cases he : (checkFiles env fs dir d.hash).2 with
      | true =>
        have hstep : detectReleases env fs dir bn (v :: rest) acc =
            detectReleases env fs dir bn rest (some "Unknown") := by
          rw [detectReleases, hb]
          simp [hm, he]
        rw [hstep]
        have hu := (ih (some "Unknown") hnmr).1 rfl
        refine ⟨fun _ => hu, fun _ => hu, fun hall => ?_⟩
        exact absurd (hall v (List.mem_cons_self v rest) d hb) (by simp [he])
      | false =>
        have hstep : detectReleases env fs dir bn (v :: rest) acc =
            detectReleases env fs dir bn rest acc := by
          rw [detectReleases, hb]
          simp [hm, he]
        rw [hstep]
        refine ⟨(ih acc hnmr).1, fun hex => ?_, fun hall => ?_⟩
        · obtain ⟨r, hr, d', hd, hex2⟩ := hex
          rcases List.mem_cons.mp hr with hrv | hrr
          · subst hrv
            rw [hb] at hd
            injection hd with hd'
            subst hd'
            exact absurd hex2 (by simp [he])
          · exact (ih acc hnmr).2.1 ⟨r, hrr, d', hd, hex2⟩
        · exact (ih acc hnmr).2.2 fun r hr d' hd => hall r (List.mem_cons_of_mem v hr) d' hd

/-- Scanning skips a prefix of non-matching releases (only possibly
changing the accumulator). -/
theorem detectReleases_skip (env : Env) (fs : List ((InstallDir × String) × Data))
    (dir : InstallDir) (bn : BinName) :
    ∀ (l1 rest : List Release) (acc : Option String),
      (∀ r ∈ l1, ∀ d, lookupA r.bins bn = some d → (checkFiles env fs dir d.hash).1 = false) →
      ∃ acc', detectReleases env fs dir bn (l1 ++ rest) acc =
        detectReleases env fs dir bn rest acc' := by
  intro l1
  induction l1 with
  | nil => intro rest acc _; exact ⟨acc, rfl⟩
  | cons v l ih =>
    intro rest acc hnm
    have hnml : ∀ r ∈ l, ∀ d, lookupA r.bins bn = some d →
        (checkFiles env fs dir d.hash).1 = false :=
      fun r hr d hd => hnm r (List.mem_cons_of_mem v hr) d hd
    rw [List.cons_append, detectReleases]
    cases hb : lookupA v.bins bn with
    | none => exact ih rest acc hnml
    | some d =>
      have hm : (checkFiles env fs dir d.hash).1 = false := hnm v (List.mem_cons_self v l) d hb
      simp only [hm, Bool.false_eq_true, if_false]
      cases (checkFiles env fs dir d.hash).2 with
      | true => simpa using ih rest (some "Unknown") hnml
      | false => simpa using ih rest acc hnml

/-- A fully matching head release wins immediately, whatever the
accumulator and whatever follows. -/
theorem detectReleases_match_head (env : Env) (fs : List ((InstallDir × String) × Data))
    (dir : InstallDir) (bn : BinName) (r1 : Release) (d : BinDesc)
    (rest : List Release) (acc : Option String)
    (hb : lookupA r1.bins bn = some d)
    (hm : (checkFiles env fs dir d.hash).1 = true) :
    detectReleases env fs dir bn (r1 :: rest) acc = some r1.version := by
  rw [detectReleases, hb]
  simp [hm]

/-- Folding the detector over packages whose identifiers differ from `k`
does not change the table entry at `k`. -/
theorem detect_fold_absent (env : Env) (fs : List ((InstallDir × String) × Data)) :
    ∀ (cat : Catalog) (tbl : List (String × String)) (k : String),
      (∀ q ∈ cat, q.identifier ≠ k) →
      lookupA (cat.foldl (detectStep env fs) tbl) k = lookupA tbl k := by
  intro cat
  induction cat with
  | nil => intro tbl k _; rfl
  | cons q rest ih =>
    intro tbl k hne
    rw [List.foldl_cons]
    rw [ih (detectStep env fs tbl q) k (fun r hr => hne r (List.mem_cons_of_mem q hr))]
    rw [detectStep]
    cases detectPackage env fs q with
    | none => rfl
    | some v =>
      simp only
      exact lookupA_insertA_ne tbl q.identifier k v
        fun h => hne q (List.mem_cons_self q rest) h.symm

/-- The final table entry for a package with a unique identifier is its
own per-package detection outcome. -/
theorem detect_lookup (env : Env) (fs : List ((InstallDir × String) × Data)) :
    ∀ (cat : Catalog) (tbl : List (String × String)) (p : Package),
      p ∈ cat → (∀ q ∈ cat, q.identifier = p.identifier → q = p) →
      lookupA (cat.foldl (detectStep env fs) tbl) p.identifier =
        (match detectPackage env fs p with
          | some v => some v
          | none => lookupA tbl p.identifier) := by
  intro cat
  induction cat with
  | nil => intro tbl p hmem _; exact absurd hmem (List.not_mem_nil p)
  | cons q rest ih =>
    intro tbl p hmem huniq
    rw [List.foldl_cons]
    by_cases hpr : p ∈ rest
    · rw [ih (detectStep env fs tbl q) p hpr
        (fun r hr h => huniq r (List.mem_cons_of_mem q hr) h)]
      cases hdp : detectPackage env fs p with
      | some v => rfl
      | none =>
        simp only
        by_cases hqp : q = p
        · subst hqp
          rw [detectStep, hdp]
        · have hne : q.identifier ≠ p.identifier :=
            fun h => hqp (huniq q (List.mem_cons_self q rest) h)
          rw [detectStep]
          cases detectPackage env fs q with
          | none => rfl
          | some w =>
            simp only
            exact lookupA_insertA_ne tbl q.identifier p.identifier w (Ne.symm hne)
    · have hqp : q = p := by
        rcases List.mem_cons.mp hmem with h | h
        · exact h.symm
        · exact absurd h hpr
      subst hqp
      have habs : ∀ r ∈ rest, r.identifier ≠ q.identifier := by
        intro r hr h
        exact hpr (huniq r (List.mem_cons_of_mem q hr) h ▸ hr)
      rw [detect_fold_absent env fs rest (detectStep env fs tbl q) q.identifier habs]
      rw [detectStep]
      cases detectPackage env fs q with
      | none => rfl
      | some v => exact lookupA_insertA_self tbl q.identifier v

/-! ### Claim C2 -/

/-- Claim C2 (amended): when no release of a package fully matches on
disk, `detect` records the package as `Unknown` exactly when some release
with a descriptor for the active target has **all** of its declared files
present (with at least one hash mismatching); when every such release has
at least one declared file missing — in particular when none of the
declared files exist at all — no entry is recorded. -/
theorem detect_partial_state (env : Env) (fs : List ((InstallDir × String) × Data))
    (cat : Catalog) (p : Package)
    (hmem : p ∈ cat) (huniq : ∀ q ∈ cat, q.identifier = p.identifier → q = p)
    (hnomatch : ∀ r ∈ p.releases, ∀ d, lookupA r.bins (get_bin_name env p) = some d →
      (checkFiles env fs (get_install_path p) d.hash).1 = false) :
    ((∃ r ∈ p.releases, ∃ d, lookupA r.bins (get_bin_name env p) = some d ∧
        (checkFiles env fs (get_install_path p) d.hash).2 = true) →
      lookupA (detect_installed_packages env cat fs) p.identifier = some "Unknown") ∧
    ((∀ r ∈ p.releases, ∀ d, lookupA r.bins (get_bin_name env p) = some d →
        (checkFiles env fs (get_install_path p) d.hash).2 = false) →
      lookupA (detect_installed_packages env cat fs) p.identifier = none) := by
  have hdl := detect_lookup env fs cat [] p hmem huniq
  have hnm := detectReleases_no_match env fs (get_install_path p) (get_bin_name env p)
    p.releases none hnomatch
  constructor
  · intro hex
    rw [detect_installed_packages, hdl, detectPackage, hnm.2.1 hex]
  · intro hall
    rw [detect_installed_packages, hdl, detectPackage, hnm.2.2 hall]
    rfl

/-- Witness for the amended C2: with both of `p2`'s declared files present
but `f1` mismatching, the package is recorded `Unknown`; and with `f2`
missing, no entry at all is recorded. -/
theorem detect_partial_state_witness :
    lookupA (detect_installed_packages tEnv [p2] fs2u) p2.identifier = some "Unknown" ∧
    lookupA (detect_installed_packages tEnv [p2] fs2) p2.identifier = none :=
  ⟨(detect_partial_state tEnv fs2u [p2] p2 (by simp)
      (fun q hq _ => by simpa using hq)
      (by
        intro r hr d hd
        simp only [p2, List.mem_singleton] at hr
        subst hr
        rw [show lookupA relP2.bins (get_bin_name tEnv p2) = some d2 from rfl] at hd
        injection hd with hd'
        subst hd'
        decide)).1
    ⟨relP2, by simp [p2], d2, rfl, by decide⟩,
   (detect_partial_state tEnv fs2 [p2] p2 (by simp)
      (fun q hq _ => by simpa using hq)
      (by
        intro r hr d hd
        simp only [p2, List.mem_singleton] at hr
        subst hr
        rw [show lookupA relP2.bins (get_bin_name tEnv p2) = some d2 from rfl] at hd
        injection hd with hd'
        subst hd'
        decide)).2
    (by
      intro r hr d hd
      simp only [p2, List.mem_singleton] at hr
      subst hr
      rw [show lookupA relP2.bins (get_bin_name tEnv p2) = some d2 from rfl] at hd
      injection hd with hd'
      subst hd'
      decide)⟩

/-- Claim C2 counterexample: `f1` is declared by `p2`'s release and exists
on disk (mismatching), `f2` is missing; the claim says the package is then
recorded `Unknown`, but `detect` records nothing at all. -/
theorem detect_partial_no_entry :
    detect_installed_packages tEnv [p2] fs2 = [] ∧
    p2.releases = [relP2] ∧
    lookupA relP2.bins (get_bin_name tEnv p2) = some d2 ∧
    "f1" ∈ d2.hash.map Prod.fst ∧
    lookupA fs2 (.pluginDir, "f1") = some "XXX" ∧
    lookupA fs2 (.pluginDir, "f2") = none := by
  decide

/-! ### Claim C8 -/

/-- Claim C8: for a package with two releases carrying the identical
binary descriptor for the active target, all of whose files match on disk
(and nothing earlier in catalog order matching), detection records the
version of the release that appears earlier in catalog order, and the
outcome is the same whatever releases follow the first matching one —
later releases are not consulted. -/
theorem detect_first_match_wins (env : Env) (fs : List ((InstallDir × String) × Data))
    (cat : Catalog) (p : Package) (l1 l2 l3 : List Release) (r1 r2 : Release) (d : BinDesc)
    (hmem : p ∈ cat) (huniq : ∀ q ∈ cat, q.identifier = p.identifier → q = p)
    (hrels : p.releases = l1 ++ r1 :: l2 ++ r2 :: l3)
    (hb1 : lookupA r1.bins (get_bin_name env p) = some d)
    (_hb2 : lookupA r2.bins (get_bin_name env p) = some d)
    (hm : (checkFiles env fs (get_install_path p) d.hash).1 = true)
    (hl1 : ∀ r ∈ l1, ∀ d', lookupA r.bins (get_bin_name env p) = some d' →
      (checkFiles env fs (get_install_path p) d'.hash).1 = false) :
    lookupA (detect_installed_packages env cat fs) p.identifier = some r1.version ∧
    ∀ (rest : List Release) (acc : Option String),
      detectReleases env fs (get_install_path p) (get_bin_name env p) (l1 ++ r1 :: rest) acc =
        some r1.version := by
  have hmain : ∀ (rest : List Release) (acc : Option String),
      detectReleases env fs (get_install_path p) (get_bin_name env p) (l1 ++ r1 :: rest) acc =
        some r1.version := by
    intro rest acc
    obtain ⟨acc', hskip⟩ := detectReleases_skip env fs (get_install_path p) (get_bin_name env p)
      l1 (r1 :: rest) acc hl1
    rw [hskip]
    exact detectReleases_match_head env fs (get_install_path p) (get_bin_name env p)
      r1 d rest acc' hb1 hm
  refine ⟨?_, hmain⟩
  have hdl := detect_lookup env fs cat [] p hmem huniq
  rw [detect_installed_packages, hdl, detectPackage, hrels]
  simp only [List.append_assoc, List.cons_append, hmain]

/-- Witness for C8: both releases of `p8` match on `fs8`; detection
records `1.0`, the earlier release's version. -/
theorem detect_first_match_wins_witness :
    lookupA (detect_installed_packages tEnv [p8] fs8) p8.identifier = some r81.version :=
  (detect_first_match_wins tEnv fs8 [p8] p8 [] [] [] r81 r82 d8 (by simp)
    (fun q hq _ => by simpa using hq) (by decide) (by decide) (by decide) (by decide)
    (fun r hr _ _ => absurd hr (List.not_mem_nil r))).1

/-! ### Claim C6 -/

/-- When every file to delete is present (and the list has no duplicates,
as with keys of a Python dict), the deletion loop succeeds and the final
filesystem is the original minus exactly those keys. -/
theorem removeFiles_ok (dir : InstallDir) :
    ∀ (files : List String) (st : State),
      files.Nodup →
      (∀ f ∈ files, (lookupA st.fs (dir, f)).isSome = true) →
      removeFiles dir files st =
        (.ok (), State.mk st.installed
          (files.foldl (fun a f => eraseA a (dir, f)) st.fs) st.log) := by
  intro files
  induction files with
  | nil => intro st _ _; rfl
  | cons f rest ih =>
    intro st hnd hpres
    have hf := hpres f (List.mem_cons_self f rest)
    rw [removeFiles]
    cases hlk : lookupA st.fs (dir, f) with
    | none => rw [hlk] at hf; exact absurd hf (by simp)
    | some data =>
      simp only
      have hrest : ∀ g ∈ rest, (lookupA (eraseA st.fs (dir, f)) (dir, g)).isSome = true := by
        intro g hg
        have hne : (dir, g) ≠ (dir, f) := by
          intro h
          injection h with _ h2
          exact (List.nodup_cons.mp hnd).1 (h2 ▸ hg)
        rw [lookupA_eraseA st.fs (dir, f) (dir, g), if_neg hne]
        exact hpres g (List.mem_cons_of_mem f hg)
      have := ih { st with fs := eraseA st.fs (dir, f) } (List.nodup_cons.mp hnd).2 hrest
      rw [this]
      simp

/-- Looking up a key after erasing a batch of filenames from one
directory: erased keys are gone, everything else is untouched. -/
theorem lookupA_eraseFold (dir : InstallDir) :
    ∀ (files : List String) (fs : List ((InstallDir × String) × Data))
      (k : InstallDir × String),
      lookupA (files.foldl (fun a f => eraseA a (dir, f)) fs) k =
        if k.1 = dir ∧ k.2 ∈ files then none else lookupA fs k := by
  intro files
  induction files with
  | nil => intro fs k; simp
  | cons f rest ih =>
    intro fs k
    rw [List.foldl_cons, ih]
    by_cases h1 : k.1 = dir
    · by_cases h2 : k.2 ∈ rest
      · simp [h1, h2]
      · by_cases h3 : k.2 = f
        · have hk : k = (dir, f) := Prod.ext h1 h3
          simp [h1, h2, h3, lookupA_eraseA, hk]
        · have hk : k ≠ (dir, f) := by
            intro h
            exact h3 (congrArg Prod.snd h)
          simp [h1, h2, h3, lookupA_eraseA, hk]
    · have hk : k ≠ (dir, f) := by
        intro h
        exact h1 (congrArg Prod.fst h)
      simp [h1, lookupA_eraseA, hk]

/-- Claim C6: resolving to a package installed at a known version whose
recorded release and files are intact, uninstall returns `(1, 0)` and
deletes exactly the files named in that release's hash mapping (erased
keys gone, all other files untouched, table and log unchanged); when the
package is absent or recorded `Unknown`, it returns `(0, 0)` and deletes
nothing. -/
theorem uninstall_spec (env : Env) (cat : Catalog) (name : String) (st : State) (p : Package)
    (hp : get_package_from_name cat name = some p) :
    (∀ v rel d, lookupA st.installed p.identifier = some v → v ≠ "Unknown" →
      p.releases.find? (fun r => r.version == v) = some rel →
      lookupA rel.bins (get_bin_name env p) = some d →
      (d.hash.map Prod.fst).Nodup →
      (∀ f ∈ d.hash.map Prod.fst, (lookupA st.fs (get_install_path p, f)).isSome = true) →
      uninstall_package env cat name st = (.ok (1, 0),
        State.mk st.installed ((d.hash.map Prod.fst).foldl
          (fun a f => eraseA a (get_install_path p, f)) st.fs) st.log) ∧
      (∀ k, lookupA ((d.hash.map Prod.fst).foldl
          (fun a f => eraseA a (get_install_path p, f)) st.fs) k =
        if k.1 = get_install_path p ∧ k.2 ∈ d.hash.map Prod.fst then none
        else lookupA st.fs k)) ∧
    (lookupA st.installed p.identifier = none →
      uninstall_package env cat name st = (.ok (0, 0), st)) ∧
    (lookupA st.installed p.identifier = some "Unknown" →
      uninstall_package env cat name st = (.ok (0, 0), st)) := by
  refine ⟨?_, ?_, ?_⟩
  · intro v rel d hv hvu hfind hbin hnd hpres
    have hin : is_package_installed st p.identifier = true := by
      rw [is_package_installed, hv]; rfl
    have hne : (lookupA st.installed p.identifier == some "Unknown") = false := by
      rw [hv]
      simp [hvu]
    have huf : uninstall_files env p st = (.ok (), State.mk st.installed
        ((d.hash.map Prod.fst).foldl (fun a f => eraseA a (get_install_path p, f)) st.fs)
        st.log) := by
      rw [uninstall_files, hv]
      simp only [hfind, hbin]
      exact removeFiles_ok (get_install_path p) (d.hash.map Prod.fst) st hnd hpres
    constructor
    · rw [uninstall_package, hp]
      simp only [hin, if_true, hne, Bool.false_eq_true, if_false, huf]
    · intro k
      exact lookupA_eraseFold (get_install_path p) (d.hash.map Prod.fst) st.fs k
  · intro hv
    have hin : is_package_installed st p.identifier = false := by
      rw [is_package_installed, hv]; rfl
    rw [uninstall_package, hp]
    simp [hin]
  · intro hv
    have hin : is_package_installed st p.identifier = true := by
      rw [is_package_installed, hv]; rfl
    have heq : (lookupA st.installed p.identifier == some "Unknown") = true := by
      rw [hv]; rfl
    rw [uninstall_package, hp]
    simp [hin, heq]

/-- Witness for C6 on the concrete fixture: uninstalling `a` at `1.0`
returns `(1, 0)` and erases exactly `a.dll`; with `a` absent or recorded
`Unknown` nothing happens. -/
theorem uninstall_spec_witness :
    uninstall_package tEnv [pa6] "a" st6 = (.ok (1, 0),
      State.mk st6.installed ((d6.hash.map Prod.fst).foldl
        (fun a f => eraseA a (get_install_path pa6, f)) st6.fs) st6.log) ∧
    uninstall_package tEnv [pa6] "a" { st6 with installed := [("b", "2.0")] } =
      (.ok (0, 0), { st6 with installed := [("b", "2.0")] }) ∧
    uninstall_package tEnv [pa6] "a" { st6 with installed := [("a", "Unknown")] } =
      (.ok (0, 0), { st6 with installed := [("a", "Unknown")] }) :=
  ⟨((uninstall_spec tEnv [pa6] "a" st6 pa6 (by decide)).1 "1.0" rel6 d6
      (by decide) (by decide) (by decide) (by decide) (by decide) (by decide)).1,
   (uninstall_spec tEnv [pa6] "a" { st6 with installed := [("b", "2.0")] } pa6 (by decide)).2.1
     (by decide),
   (uninstall_spec tEnv [pa6] "a" { st6 with installed := [("a", "Unknown")] } pa6
     (by decide)).2.2 (by decide)⟩

/-! ### Claim C3 -/

/-- Claim C3 (amended): the `'all'` upgrade loop iterates the installed
identifiers and a package that is merely not upgradable is skipped without
disturbing the rest of the batch; but a materialization failure (for
example a hash mismatch) raised while upgrading one package aborts the
whole remaining batch — the error propagates, with the state of all prior
completed operations intact in the returned state. -/
theorem upgrade_all_skip_and_abort (env : Env) (cat : Catalog) (fuel : Nat) (force : Bool)
    (id : String) (rest : List String) (acc : Nat × Nat) (st : State) :
    (is_package_upgradable env cat st id force = .ok false →
      upgrade_all env cat fuel force (id :: rest) acc st =
        upgrade_all env cat fuel force rest acc st) ∧
    (∀ p e st1, is_package_upgradable env cat st id force = .ok true →
      get_package_from_id cat id = some p →
      upgrade_files env cat fuel p st = (.error e, st1) →
      upgrade_all env cat fuel force (id :: rest) acc st = (.error e, st1)) := by
  constructor
  · intro hup
    rw [upgrade_all, hup]
  · intro p e st1 hup hgp huf
    rw [upgrade_all, hup]
    simp only [hgp, huf]

/-- Witness for the amended C3: with `a` already at the latest version and
unknown-state `b` skipped, and separately a mismatching `a` aborting. -/
theorem upgrade_all_skip_and_abort_witness :
    upgrade_all tEnv [pa3, pb3] 3 false ["a", "b"] (0, 0)
        { st3 with installed := [("a", "2.0"), ("b", "2.0")] } =
      upgrade_all tEnv [pa3, pb3] 3 false ["b"] (0, 0)
        { st3 with installed := [("a", "2.0"), ("b", "2.0")] } ∧
    upgrade_all tEnv [pa3, pb3] 3 false ["a", "b"] (0, 0) st3 =
      (.error (.hashMismatch "h:D:a2.bin" "h:GOOD"), st3) :=
  ⟨(upgrade_all_skip_and_abort tEnv [pa3, pb3] 3 false "a" ["b"] (0, 0)
      { st3 with installed := [("a", "2.0"), ("b", "2.0")] }).1 (by decide),
   (upgrade_all_skip_and_abort tEnv [pa3, pb3] 3 false "a" ["b"] (0, 0) st3).2 pa3
     (.hashMismatch "h:D:a2.bin" "h:GOOD") st3 (by decide) (by decide) (by decide)⟩

/-- Claim C3 counterexample: both `a` and `b` are installed and outdated,
`b`'s upgrade would succeed, yet the hash mismatch while upgrading `a`
aborts the whole `upgrade('all', ...)` run: the call returns the
propagated error and `b` is still at `1.0` with nothing materialized. -/
theorem upgrade_all_abort_example :
    upgrade_package tEnv [pa3, pb3] 5 "all" false st3 =
      (.error (.hashMismatch "h:D:a2.bin" "h:GOOD"), st3) ∧
    is_package_upgradable tEnv [pa3, pb3] st3 "b" false = .ok true ∧
    lookupA st3.installed "b" = some "1.0" ∧
    st3.log = [] := by
  decide

/-! ### Claim C9 -/

/-- Claim C9: installing `A` and `B` in one run, both declaring dependency
`C` with `C` (and `A`, `B`) initially absent and every materialization
succeeding, materializes `C` exactly once: the first install run records
`C`, and the second encounter during `B`'s dependency walk finds the entry
and skips re-materialization, so the run returns counts `(2, 1)` — two
packages plus one dependency — and the log gains exactly one entry for
`C`. -/
theorem reentrant_install_once (env : Env) (cat : Catalog) (fuel : Nat)
    (na nb nc : String) (pa pb pc : Package) (st0 stc sta stb : State)
    (hpa : get_package_from_name cat na = some pa)
    (hpb : get_package_from_name cat nb = some pb)
    (hpc : get_package_from_name cat nc = some pc)
    (hda : pa.dependencies = [nc])
    (hdb : pb.dependencies = [nc])
    (hdc : pc.dependencies = [])
    (hca : can_install env pa = true)
    (hcb : can_install env pb = true)
    (hcc : can_install env pc = true)
    (hac : pa.identifier ≠ pc.identifier)
    (hbc : pb.identifier ≠ pc.identifier)
    (hba : pb.identifier ≠ pa.identifier)
    (h0c : lookupA st0.installed pc.identifier = none)
    (h0a : lookupA st0.installed pa.identifier = none)
    (h0b : lookupA st0.installed pb.identifier = none)
    (hic : install_files env pc st0 = (.ok (), stc))
    (hia : install_files env pa stc = (.ok (), sta))
    (hib : install_files env pb sta = (.ok (), stb)) :
    run_install env cat (fuel + 2) [na, nb] (0, 0) st0 = (.ok (2, 1), stb) ∧
    countLog pc.identifier stb.log = countLog pc.identifier st0.log + 1 := by
  obtain ⟨relc, hinsc, hlogc⟩ :
      ∃ relc : Release, stc.installed = insertA st0.installed pc.identifier relc.version ∧
        stc.log = st0.log ++ [(pc.identifier, relc.version)] := by
    rcases install_files_cases env pc st0 with
      ⟨rel, st1, _, hif, hins, hlog⟩ | ⟨e, st1, hif, _, _⟩
    · rw [hic] at hif
      injection hif with _ hst
      exact ⟨rel, hst ▸ hins, hst ▸ hlog⟩
    · rw [hic] at hif
      exact absurd hif (by simp)
  obtain ⟨rela, hinsa, hloga⟩ :
      ∃ rela : Release, sta.installed = insertA stc.installed pa.identifier rela.version ∧
        sta.log = stc.log ++ [(pa.identifier, rela.version)] := by
    rcases install_files_cases env pa stc with
      ⟨rel, st1, _, hif, hins, hlog⟩ | ⟨e, st1, hif, _, _⟩
    · rw [hia] at hif
      injection hif with _ hst
      exact ⟨rel, hst ▸ hins, hst ▸ hlog⟩
    · rw [hia] at hif
      exact absurd hif (by simp)
  obtain ⟨relb, hinsb, hlogb⟩ :
      ∃ relb : Release, stb.installed = insertA sta.installed pb.identifier relb.version ∧
        stb.log = sta.log ++ [(pb.identifier, relb.version)] := by
    rcases install_files_cases env pb sta with
      ⟨rel, st1, _, hif, hins, hlog⟩ | ⟨e, st1, hif, _, _⟩
    · rw [hib] at hif
      injection hif with _ hst
      exact ⟨rel, hst ▸ hins, hst ▸ hlog⟩
    · rw [hib] at hif
      exact absurd hif (by simp)
  have hi0c : is_package_installed st0 pc.identifier = false := by
    rw [is_package_installed, h0c]; rfl
  have hC : install_package env cat (fuel + 1) nc st0 = (.ok (1, 0), stc) := by
    simp [install_package, hpc, hcc, hdc, hi0c, hic]
  have hiac : is_package_installed stc pa.identifier = false := by
    rw [is_package_installed, hinsc, lookupA_insertA_ne _ _ _ _ hac, h0a]; rfl
  have hfoldA : List.foldl (depsStep (install_package env cat (fuel + 1))) (.ok 0, st0)
      pa.dependencies = (.ok 1, stc) := by
    rw [hda]
    simp [depsStep, hC]
  have hA : install_package env cat (fuel + 2) na st0 = (.ok (1, 1), sta) := by
    show install_package env cat (fuel + 1 + 1) na st0 = (.ok (1, 1), sta)
    rw [install_package]
    simp [hpa, hca, hfoldA, hiac, hia]
  have hstcc : lookupA stc.installed pc.identifier = some relc.version := by
    rw [hinsc, lookupA_insertA_self]
  have hisac : is_package_installed sta pc.identifier = true := by
    rw [is_package_installed, hinsa, lookupA_insertA_ne _ _ _ _ (Ne.symm hac), hstcc]; rfl
  have hC2 : install_package env cat (fuel + 1) nc sta = (.ok (0, 0), sta) := by
    simp [install_package, hpc, hcc, hdc, hisac]
  have hisab : is_package_installed sta pb.identifier = false := by
    rw [is_package_installed, hinsa, lookupA_insertA_ne _ _ _ _ hba, hinsc,
      lookupA_insertA_ne _ _ _ _ hbc, h0b]; rfl
  have hfoldB : List.foldl (depsStep (install_package env cat (fuel + 1))) (.ok 0, sta)
      pb.dependencies = (.ok 0, sta) := by
    rw [hdb]
    simp [depsStep, hC2]
  have hB : install_package env cat (fuel + 2) nb sta = (.ok (1, 0), stb) := by
    show install_package env cat (fuel + 1 + 1) nb sta = (.ok (1, 0), stb)
    rw [install_package]
    simp [hpb, hcb, hfoldB, hisab, hib]
  constructor
  · simp [run_install, hA, hB]
  · rw [hlogb, countLog_append, hloga, countLog_append, hlogc, countLog_append,
      countLog_single_eq, countLog_single_ne pc.identifier pa.identifier rela.version hac,
      countLog_single_ne pc.identifier pb.identifier relb.version hbc]

/-- Witness for C9 on the concrete three-package catalog: `a9` and `b9`
both depend on `c9`; the run installs `c9` once (counts `(2, 1)`, one
`c9` log entry). -/
theorem reentrant_install_once_witness :
    run_install tEnv [pa9, pb9, pc9] 2 ["a9", "b9"] (0, 0) st9 = (.ok (2, 1), stb9) ∧
    countLog pc9.identifier stb9.log = countLog pc9.identifier st9.log + 1 :=
  reentrant_install_once tEnv [pa9, pb9, pc9] 0 "a9" "b9" "c9" pa9 pb9 pc9 st9 stc9 sta9 stb9
    (by decide) (by decide) (by decide) (by decide) (by decide) (by decide)
    (by decide) (by decide) (by decide) (by decide) (by decide) (by decide)
    (by decide) (by decide) (by decide) (by decide) (by decide) (by decide)

end VSRepo
